import Mathlib

/-!
Verification development for the CandaceCalc calculator core:
the calculation engine (src/utils/calculator.ts), the session state
machine (the calculator screen's inlined handlers and the useCalculator
hook), and the undo/redo history manager (useUndoRedo).

Numbers are embedded as exact rationals (ℚ): the source computes with
JS numbers, and every numeric claim here concerns exact decimal
arithmetic, so the idealised-decimal semantics is the faithful reading.
JS `Math.round` is specified to return the closest integer, ties going
toward positive infinity, which on rationals is `⌊x + 1/2⌋`.
-/

/-- Calculator mode, from src/unnamed/part_004 (`CalculatorMode`):
`'checkbook' | 'scientific'`. -/
inductive CalculatorMode where
  | checkbook
  | scientific
deriving DecidableEq, Repr

/-- The four operators of the `Operation` string-union type from
src/unnamed/part_004 (`'+' | '-' | '×' | '÷'`); the source also admits
`null`, which is modelled as `Option Operation` at use sites. -/
inductive Operation where
  | add
  | sub
  | mul
  | div
deriving DecidableEq, Repr

/-- The UI glyph that the source uses as the value of each operator
(operators are strings in the source; the enum plus this map is the
same data). -/
def Operation.symbol : Operation → String
  | .add => "+"
  | .sub => "-"
  | .mul => "×"
  | .div => "÷"

/-- src/constants/calculator.ts: `MAX_DISPLAY_LENGTH = 15`. -/
def MAX_DISPLAY_LENGTH : ℕ := 15

/-- src/constants/calculator.ts: `DECIMAL_PLACES_CHECKBOOK = 2`. -/
def DECIMAL_PLACES_CHECKBOOK : ℕ := 2

/-- src/constants/calculator.ts: `DECIMAL_PLACES_SCIENTIFIC = 8`. -/
def DECIMAL_PLACES_SCIENTIFIC : ℕ := 8

/-- src/constants/calculator.ts: `UNDO_REDO_STACK_SIZE = 20`. -/
def UNDO_REDO_STACK_SIZE : ℕ := 20

/-- JS `Math.round`: the closest integer, ties toward positive
infinity, i.e. `⌊x + 1/2⌋` on exact rationals. -/
def jsRound (x : ℚ) : ℤ := ⌊x + 1/2⌋

namespace CalculatorEngine

/-- The result record returned by `CalculatorEngine.calculate`
(src/utils/calculator.ts lines 12-69). -/
structure CalcResult where
  result : ℚ
  error : Bool
  errorMessage : String
deriving DecidableEq, Repr

/-- The divide-by-zero message from src/utils/calculator.ts line 40. -/
def divideByZeroMsg : String :=
  "Cannot divide by zero. This would create an infinite number. Press C to start fresh or ↶ to undo."

/-- The range-overflow message from src/utils/calculator.ts line 57. -/
def resultTooLargeMsg : String :=
  "This number is too large to display. The maximum is 999,999,999.99. Press C to start over."

/-- The catch-all message from src/utils/calculator.ts line 66 (the
`catch` branch; unreachable in the rational embedding, where every
arithmetic step is total). -/
def computationFailedMsg : String :=
  "An error occurred. Press C to start over."

/-- `decimalPlaces` selection used by `roundToMode` and
`formatForDisplay`: `mode === 'checkbook' ? DECIMAL_PLACES_CHECKBOOK :
DECIMAL_PLACES_SCIENTIFIC`. -/
def decimalPlacesFor (mode : CalculatorMode) : ℕ :=
  match mode with
  | .checkbook => DECIMAL_PLACES_CHECKBOOK
  | .scientific => DECIMAL_PLACES_SCIENTIFIC

/-- src/utils/calculator.ts lines 74-78 (`CalculatorEngine.roundToMode`):
multiply by `10^decimalPlaces`, `Math.round`, divide back. -/
def roundToMode (value : ℚ) (mode : CalculatorMode) : ℚ :=
  let factor : ℚ := 10 ^ decimalPlacesFor mode
  (jsRound (value * factor) : ℚ) / factor

/-- The raw (pre-rounding) arithmetic of the `switch` in
src/utils/calculator.ts lines 25-47, one case per operator. -/
def rawResult (op : Operation) (firstValue secondValue : ℚ) : ℚ :=
  match op with
  | .add => firstValue + secondValue
  | .sub => firstValue - secondValue
  | .mul => firstValue * secondValue
  | .div => firstValue / secondValue

/-- Lines 49-61 of src/utils/calculator.ts: round the raw result to the
mode, then fail if its absolute value exceeds 999,999,999.99, else
succeed with the rounded value. -/
def roundAndCheck (raw : ℚ) (mode : CalculatorMode) : CalcResult :=
  let result := roundToMode raw mode
  if |result| > 999999999.99 then
    { result := 0, error := true, errorMessage := resultTooLargeMsg }
  else
    { result := result, error := false, errorMessage := "" }

/-- src/utils/calculator.ts lines 12-69 (`CalculatorEngine.calculate`).
A `null` operation returns the no-op result; divide checks the second
operand for zero before dividing; every other path rounds and
range-checks. The source's `try`/`catch` cannot fire here because all
rational operations are total. -/
def calculate (firstValue : ℚ) (operation : Option Operation)
    (secondValue : ℚ) (mode : CalculatorMode := .checkbook) : CalcResult :=
  match operation with
  | none => { result := 0, error := false, errorMessage := "" }
  | some Operation.add => roundAndCheck (firstValue + secondValue) mode
  | some Operation.sub => roundAndCheck (firstValue - secondValue) mode
  | some Operation.mul => roundAndCheck (firstValue * secondValue) mode
  | some Operation.div =>
      if secondValue = 0 then
        { result := 0, error := true, errorMessage := divideByZeroMsg }
      else
        roundAndCheck (firstValue / secondValue) mode

end CalculatorEngine

/-! ## String-side helpers of the engine

`getDisplayValue` wraps JS `parseFloat`; the session machine feeds it
only display strings built from digits, an optional leading `-` and at
most one `.`. The model implements `parseFloat`'s decimal grammar
(optional leading whitespace and sign, digits around at most one dot,
an optional exponent part) exactly; the `Infinity` literal has no
rational counterpart and is not modelled (no display string can ever
hold it). -/

/-- Numeric value of a list of decimal digit characters (most
significant first). -/
def digitsToNat (ds : List Char) : ℕ :=
  ds.foldl (fun acc c => 10 * acc + (c.toNat - '0'.toNat)) 0

/-- JS `parseFloat` on the decimal grammar: longest valid numeric
prefix, `none` when no digit is found (JS `NaN`). -/
def jsParseFloat (s : String) : Option ℚ :=
  let cs := s.toList.dropWhile (fun c => c = ' ' ∨ c = '\t' ∨ c = '\n' ∨ c = '\r')
  let sgn : ℚ := if cs.head? = some '-' then -1 else 1
  let cs := if cs.head? = some '-' ∨ cs.head? = some '+' then cs.tail else cs
  let intDs := cs.takeWhile Char.isDigit
  let cs1 := cs.dropWhile Char.isDigit
  let fracDs :=
    if cs1.head? = some '.' then cs1.tail.takeWhile Char.isDigit else []
  let cs2 :=
    if cs1.head? = some '.' then cs1.tail.dropWhile Char.isDigit else cs1
  if intDs = [] ∧ fracDs = [] then
    none
  else
    let mantissa : ℚ :=
      (digitsToNat intDs : ℚ) + (digitsToNat fracDs : ℚ) / (10 : ℚ) ^ fracDs.length
    let expPart : ℤ :=
      if cs2.head? = some 'e' ∨ cs2.head? = some 'E' then
        let rest := cs2.tail
        let esgn : ℤ := if rest.head? = some '-' then -1 else 1
        let rest := if rest.head? = some '-' ∨ rest.head? = some '+' then rest.tail else rest
        let eds := rest.takeWhile Char.isDigit
        if eds = [] then 0 else esgn * (digitsToNat eds : ℤ)
      else 0
    some (sgn * mantissa * (10 : ℚ) ^ expPart)

namespace CalculatorEngine

/-- src/utils/calculator.ts lines 138-142
(`CalculatorEngine.getDisplayValue`): empty string and a lone `-`
give `0`; otherwise `parseFloat`, with `NaN` defaulting to `0`. -/
def getDisplayValue (displayStr : String) : ℚ :=
  if displayStr = "" ∨ displayStr = "-" then 0
  else
    match jsParseFloat displayStr with
    | none => 0
    | some num => num

/-- Decimal digit string of `n`, left-padded with zeros to `d`
characters (the fractional part produced by JS `toFixed`). -/
def padDigits (n : ℕ) (d : ℕ) : String :=
  let s := toString n
  String.mk (List.replicate (d - s.length) '0') ++ s

/-- JS `Number.prototype.toFixed d` on an exact rational: sign taken
from the value, then the magnitude scaled by `10^d` and rounded to the
nearest integer, ties toward the larger candidate, printed with
exactly `d` fractional digits. -/
def ratToFixed (q : ℚ) (d : ℕ) : String :=
  let sign := if q < 0 then "-" else ""
  let n := (⌊|q| * (10 : ℚ) ^ d + 1/2⌋).toNat
  if d = 0 then sign ++ toString n
  else sign ++ toString (n / 10 ^ d) ++ "." ++ padDigits (n % 10 ^ d) d

/-- JS `Number.prototype.toString` on an exact rational with a
terminating decimal expansion: the shortest decimal form (no trailing
fractional zeros, no decimal point for integers). Rationals without a
terminating expansion cannot arise from display-string parses; for
totality they print with 17 fractional digits (the double-precision
significand width JS falls back to). -/
def ratToString (q : ℚ) : String :=
  match (List.range (q.den + 1)).find? (fun d => (q * (10 : ℚ) ^ d).den = 1) with
  | some d => ratToFixed q d
  | none => ratToFixed q 17

/-- src/utils/calculator.ts lines 83-106
(`CalculatorEngine.formatForDisplay`), numeric-argument branch (the
only one the session machine uses): `toFixed` to the mode's decimal
places, truncate to `MAX_DISPLAY_LENGTH` characters plus an ellipsis
when longer, then prefix the currency symbol in checkbook mode when
the symbol is non-empty. -/
def formatForDisplay (value : ℚ) (mode : CalculatorMode)
    (currencySymbol : String := "") : String :=
  let display := ratToFixed value (decimalPlacesFor mode)
  let display :=
    if display.length > MAX_DISPLAY_LENGTH then
      display.take MAX_DISPLAY_LENGTH ++ "…"
    else display
  if currencySymbol ≠ "" ∧ mode = CalculatorMode.checkbook then
    currencySymbol ++ display
  else display

/-- src/utils/calculator.ts lines 111-126
(`CalculatorEngine.formatExpression`): both operands fixed to two
decimals with the currency symbol, joined by the operator glyph; a
missing second operand prints the first operand alone. -/
def formatExpression (firstValue : ℚ) (operation : Option Operation)
    (secondValue : Option ℚ) (currencySymbol : String := "$") : String :=
  match operation, secondValue with
  | some op, some second =>
      currencySymbol ++ ratToFixed firstValue 2 ++ " " ++ op.symbol ++ " " ++
        currencySymbol ++ ratToFixed second 2
  | _, _ => currencySymbol ++ ratToFixed firstValue 2

end CalculatorEngine

/-- The session state record (`CalculatorState` in
src/unnamed/part_004, plus the `expression` field that every handler
in src/unnamed/part_006 and src/unnamed/part_007 reads and writes). -/
structure CalculatorState where
  display : String
  expression : String
  previousValue : Option ℚ
  operation : Option Operation
  waitingForOperand : Bool
  error : Bool
  errorMessage : String
deriving DecidableEq, Repr

/-- `INITIAL_CALCULATOR_STATE` from src/unnamed/part_007 lines 34-42
(identical to `INITIAL_STATE` in src/unnamed/part_006 lines 11-19). -/
def INITIAL_CALCULATOR_STATE : CalculatorState :=
  { display := "0"
    expression := ""
    previousValue := none
    operation := none
    waitingForOperand := false
    error := false
    errorMessage := "" }

namespace CalculatorScreen

/-!
The inlined session handlers of the main calculator screen
(src/unnamed/part_007, first file, `CalculatorScreen`). Each handler
is the pure state-updater passed to `setCalculatorState`; handlers
that consult the engine take the active `settings.mode` as an
argument.
-/

open CalculatorEngine

/-- src/unnamed/part_007 lines 118-150 (`handleNumberPress`): an error
state restarts from the pressed digit; a waiting state starts a fresh
number; otherwise the digit replaces a lone `"0"` or is appended, and
the keystroke is dropped when the parsed candidate exceeds the
999,999,999.99 input bound. -/
def handleNumberPress (prev : CalculatorState) (digit : String) : CalculatorState :=
  if prev.error then
    { INITIAL_CALCULATOR_STATE with display := digit, waitingForOperand := false }
  else if prev.waitingForOperand then
    { prev with display := digit, waitingForOperand := false }
  else
    let potentialDisplay :=
      if prev.display = "0" ∧ digit ≠ "." then digit else prev.display ++ digit
    let potentialValue := getDisplayValue potentialDisplay
    if |potentialValue| > 999999999.99 then prev
    else { prev with display := potentialDisplay }

/-- src/unnamed/part_007 lines 155-181 (`handleDecimal`). -/
def handleDecimal (prev : CalculatorState) : CalculatorState :=
  if prev.error then
    { INITIAL_CALCULATOR_STATE with display := "0." }
  else if prev.waitingForOperand then
    { prev with display := "0.", waitingForOperand := false }
  else if prev.display.contains '.' then
    prev
  else
    { prev with display := prev.display ++ "." }

/-- src/unnamed/part_007 lines 186-243 (`handleOperatorPress`): with a
held previous value, a pending operation and a typed second operand,
fold them through the engine first (left-to-right chaining); an engine
error becomes the terminal error state; otherwise store the operand
and the new operator and await the next one. -/
def handleOperatorPress (mode : CalculatorMode) (prev : CalculatorState)
    (newOperation : Operation) : CalculatorState :=
  if prev.error then prev
  else
    let currentValue := getDisplayValue prev.display
    match prev.previousValue, prev.operation, prev.waitingForOperand with
    | some pv, some op, false =>
        let r := calculate pv (some op) currentValue mode
        if r.error then
          { prev with error := true, errorMessage := r.errorMessage,
                      display := "0", expression := "" }
        else
          let displayResult := formatForDisplay r.result mode
          { prev with display := displayResult,
                      expression := displayResult ++ " " ++ newOperation.symbol,
                      previousValue := some r.result,
                      operation := some newOperation,
                      waitingForOperand := true,
                      error := false, errorMessage := "" }
    | _, _, _ =>
        { prev with previousValue := some currentValue,
                    expression := prev.display ++ " " ++ newOperation.symbol,
                    operation := some newOperation,
                    waitingForOperand := true,
                    error := false, errorMessage := "" }

/-- src/unnamed/part_007 lines 248-306 (`handleEquals`), state part
(the history side effect is external persistence): no-op without a
pending operation and previous value; an engine error becomes the
terminal error state with `waitingForOperand` set; success formats the
result and closes the expression. -/
def handleEquals (mode : CalculatorMode) (prev : CalculatorState) : CalculatorState :=
  if prev.error then prev
  else
    match prev.operation, prev.previousValue with
    | some op, some pv =>
        let currentValue := getDisplayValue prev.display
        let r := calculate pv (some op) currentValue mode
        if r.error then
          { prev with error := true, errorMessage := r.errorMessage,
                      display := "0", expression := "",
                      waitingForOperand := true }
        else
          let displayResult := formatForDisplay r.result mode
          { prev with display := displayResult,
                      expression := prev.expression ++ " " ++ prev.display ++ " = " ++ displayResult,
                      previousValue := some r.result,
                      operation := none,
                      waitingForOperand := true,
                      error := false, errorMessage := "" }
    | _, _ => prev

/-- src/unnamed/part_007 lines 311-323 (`handleBackspace`). -/
def handleBackspace (prev : CalculatorState) : CalculatorState :=
  if prev.error ∨ prev.waitingForOperand then prev
  else
    let newDisplay :=
      if prev.display.dropRight 1 = "" then "0" else prev.display.dropRight 1
    { prev with display := newDisplay }

/-- src/unnamed/part_007 lines 328-336 (`handleClear`). -/
def handleClear (prev : CalculatorState) : CalculatorState :=
  { prev with display := "0", waitingForOperand := true,
              error := false, errorMessage := "" }

/-- src/unnamed/part_007 lines 341-343 (`handleAllClear`). -/
def handleAllClear (_prev : CalculatorState) : CalculatorState :=
  INITIAL_CALCULATOR_STATE

/-- src/unnamed/part_007 lines 348-361 (`handleNegative`): negate the
parsed display, rendering exact zero as `"0"` and anything else with
JS number-to-string. -/
def handleNegative (prev : CalculatorState) : CalculatorState :=
  if prev.error then prev
  else
    let value := CalculatorEngine.getDisplayValue prev.display
    let toggled := -value
    let display := if toggled = 0 then "0" else CalculatorEngine.ratToString toggled
    { prev with display := display }

end CalculatorScreen

namespace useCalculator

/-- src/unnamed/part_006 lines 27-60 (`handleNumberPress` of the
`useCalculator` hook): same branches as the screen's handler but with
no input-range guard on the appended candidate. -/
def handleNumberPress (prev : CalculatorState) (digit : String) : CalculatorState :=
  if prev.error then
    { INITIAL_CALCULATOR_STATE with display := digit, waitingForOperand := false }
  else if prev.waitingForOperand then
    { prev with display := digit, waitingForOperand := false }
  else if prev.display = "0" ∧ digit ≠ "." then
    { prev with display := digit }
  else
    { prev with display := prev.display ++ digit }

end useCalculator

/-! ## Undo/redo history manager (src/unnamed/part_005, `useUndoRedo`)

The manager's data is the `{stack, currentIndex}` pair held in the
hook's `UndoRedoState`. The advisory `feedback` banner text is UI-only
and carried by no claim, so it is not part of the model. -/

/-- The `UndoRedoState` record of src/unnamed/part_005 lines 10-13. -/
structure UndoRedoState (σ : Type) where
  stack : List σ
  currentIndex : ℕ
deriving DecidableEq, Repr

/-- Seeding at construction (src/unnamed/part_005 lines 16-19):
`{stack: [initialState], currentIndex: 0}`. -/
def initUndoRedo {σ : Type} (initialState : σ) : UndoRedoState σ :=
  { stack := [initialState], currentIndex := 0 }

/-- src/unnamed/part_005 lines 29-51 (`pushState`): drop everything
after the current index, append the new state, and when the stack now
exceeds `UNDO_REDO_STACK_SIZE` shift off the oldest entry and hold the
index at `UNDO_REDO_STACK_SIZE - 1`; otherwise point at the new last
entry. -/
def pushState {σ : Type} (newState : σ) (prev : UndoRedoState σ) : UndoRedoState σ :=
  let newStack := prev.stack.take (prev.currentIndex + 1) ++ [newState]
  if newStack.length > UNDO_REDO_STACK_SIZE then
    { stack := newStack.drop 1, currentIndex := UNDO_REDO_STACK_SIZE - 1 }
  else
    { stack := newStack, currentIndex := newStack.length - 1 }

/-- src/unnamed/part_005 lines 56-90 (`undo`): no-op at index `0` (the
callback is not invoked); otherwise step the index back and hand the
caller the snapshot now pointed at (the source passes it to
`onStateChange`; here it is returned). -/
def undoState {σ : Type} (prev : UndoRedoState σ) : UndoRedoState σ × Option σ :=
  if prev.currentIndex = 0 then (prev, none)
  else
    let newIndex := prev.currentIndex - 1
    ({ prev with currentIndex := newIndex }, prev.stack.get? newIndex)

/-- src/unnamed/part_005 lines 95-121 (`redo`): no-op when already at
the last entry; otherwise step the index forward and hand the caller
the snapshot now pointed at. -/
def redoState {σ : Type} (prev : UndoRedoState σ) : UndoRedoState σ × Option σ :=
  if prev.currentIndex ≥ prev.stack.length - 1 then (prev, none)
  else
    let newIndex := prev.currentIndex + 1
    ({ prev with currentIndex := newIndex }, prev.stack.get? newIndex)

/-- src/unnamed/part_005 lines 126-128 (`canUndo`):
`currentIndex > 0`. -/
def canUndo {σ : Type} (st : UndoRedoState σ) : Bool :=
  st.currentIndex > 0

/-- src/unnamed/part_005 lines 133-135 (`canRedo`):
`currentIndex < stack.length - 1`. -/
def canRedo {σ : Type} (st : UndoRedoState σ) : Bool :=
  st.currentIndex < st.stack.length - 1

/-- src/unnamed/part_005 lines 140-146 (`clear`): reset to a single
fresh snapshot. -/
def clearState {σ : Type} (initialState : σ) (_prev : UndoRedoState σ) : UndoRedoState σ :=
  { stack := [initialState], currentIndex := 0 }

/-- The manager-state part of one `undo` call. -/
def undoStep {σ : Type} (st : UndoRedoState σ) : UndoRedoState σ :=
  (undoState st).1

/-- The calls a caller can make on the manager, for stating
reachability invariants. -/
inductive UndoRedoEvent (σ : Type) where
  | push (s : σ)
  | undoCall
  | redoCall
  | clearCall (s : σ)

/-- Apply one manager call. -/
def urStep {σ : Type} (st : UndoRedoState σ) : UndoRedoEvent σ → UndoRedoState σ
  | .push s => pushState s st
  | .undoCall => (undoState st).1
  | .redoCall => (redoState st).1
  | .clearCall s => clearState s st

/-- Run a sequence of manager calls from a seeded manager. -/
def runUndoRedo {σ : Type} (s0 : σ) (evs : List (UndoRedoEvent σ)) : UndoRedoState σ :=
  evs.foldl urStep (initUndoRedo s0)

/-! ## Session state machine and its integration with the history

`SessionEvent` is the input surface of the screen's handlers
(src/unnamed/part_007, first file); `AppEvent` adds the undo/redo
button handlers and `AppState`/`appStep` reproduce the screen's
wiring: after every committed calculator-state change the tracking
effect (src/unnamed/part_007 lines 97-113) pushes the new state onto
the history exactly when one of `display`/`operation`/`previousValue`
changed since the last push and the new state is not an error
state. -/

/-- One user input event of the session state machine. The operator
and equals events carry the `settings.mode` active at the press. -/
inductive SessionEvent where
  | number (digit : String)
  | decimal
  | negative
  | operatorPress (op : Operation) (mode : CalculatorMode)
  | equals (mode : CalculatorMode)
  | backspace
  | clear
  | allClear

/-- Dispatch one session event to the matching screen handler. -/
def sessionStep (prev : CalculatorState) : SessionEvent → CalculatorState
  | .number digit => CalculatorScreen.handleNumberPress prev digit
  | .decimal => CalculatorScreen.handleDecimal prev
  | .negative => CalculatorScreen.handleNegative prev
  | .operatorPress op mode => CalculatorScreen.handleOperatorPress mode prev op
  | .equals mode => CalculatorScreen.handleEquals mode prev
  | .backspace => CalculatorScreen.handleBackspace prev
  | .clear => CalculatorScreen.handleClear prev
  | .allClear => CalculatorScreen.handleAllClear prev

/-- Run the session state machine from the initial state. -/
def runSession (evs : List SessionEvent) : CalculatorState :=
  evs.foldl sessionStep INITIAL_CALCULATOR_STATE

/-- The screen's combined state: the calculator state, the undo/redo
manager, and the `prevStateRef` the tracking effect compares against
(src/unnamed/part_007 lines 61-64 and 97-113). -/
structure AppState where
  calcState : CalculatorState
  ur : UndoRedoState CalculatorState
  prevRef : CalculatorState
deriving DecidableEq, Repr

/-- The mounted screen: calculator at the initial state, manager
seeded with it, ref primed by the effect's first run. -/
def initApp : AppState :=
  { calcState := INITIAL_CALCULATOR_STATE
    ur := initUndoRedo INITIAL_CALCULATOR_STATE
    prevRef := INITIAL_CALCULATOR_STATE }

/-- Commit a new calculator state and run the tracking effect of
src/unnamed/part_007 lines 98-113: push to the history iff `display`,
`operation` or `previousValue` changed since the last push and the
new state is not an error state (only then is the ref advanced). -/
def commitCalc (st : AppState) (newCalc : CalculatorState) : AppState :=
  let stateChanged :=
    st.prevRef.display ≠ newCalc.display ∨
    st.prevRef.operation ≠ newCalc.operation ∨
    st.prevRef.previousValue ≠ newCalc.previousValue
  if stateChanged ∧ newCalc.error = false then
    { calcState := newCalc, ur := pushState newCalc st.ur, prevRef := newCalc }
  else
    { st with calcState := newCalc }

/-- A screen-level input: a session event or the undo/redo buttons. -/
inductive AppEvent where
  | session (e : SessionEvent)
  | undoPress
  | redoPress

/-- One screen-level step. `handleUndo`/`handleRedo`
(src/unnamed/part_007 lines 373-386) guard on `canUndo`/`canRedo`,
step the manager, and restore the returned snapshot via
`setCalculatorState`, after which the tracking effect runs again. -/
def appStep (st : AppState) : AppEvent → AppState
  | .session e => commitCalc st (sessionStep st.calcState e)
  | .undoPress =>
      if canUndo st.ur then
        match undoState st.ur with
        | (ur1, some restored) => commitCalc { st with ur := ur1 } restored
        | (ur1, none) => { st with ur := ur1 }
      else st
  | .redoPress =>
      if canRedo st.ur then
        match redoState st.ur with
        | (ur1, some restored) => commitCalc { st with ur := ur1 } restored
        | (ur1, none) => { st with ur := ur1 }
      else st

/-- Run the mounted screen over a sequence of inputs. -/
def runApp (evs : List AppEvent) : AppState :=
  evs.foldl appStep initApp

/-- The divide-by-zero session: `10 ÷ 0 =` keyed in checkbook mode. -/
def divZeroSeq : List AppEvent :=
  [ .session (.number "1"), .session (.number "0"),
    .session (.operatorPress Operation.div CalculatorMode.checkbook),
    .session (.number "0"), .session (.equals CalculatorMode.checkbook) ]

/-! ## Claims about the calculation engine -/

open CalculatorEngine

/-- Evaluation rule for `jsRound` at concrete points. -/
lemma jsRound_eq_of (x : ℚ) (n : ℤ) (h1 : (n : ℚ) ≤ x + 1/2)
    (h2 : x + 1/2 < (n : ℚ) + 1) : jsRound x = n := by
  unfold jsRound
  exact Int.floor_eq_iff.mpr ⟨h1, h2⟩

/-- C1: for every first operand `a` and every mode,
`calculate(a, ÷, 0, mode)` returns `error = true`, `result = 0`, and an
`errorMessage` containing the text "divide by zero"; the function is
total, so no exception escapes the call. -/
theorem calculate_divide_by_zero (a : ℚ) (mode : CalculatorMode) :
    (calculate a (some Operation.div) 0 mode).error = true ∧
    (calculate a (some Operation.div) 0 mode).result = 0 ∧
    (calculate a (some Operation.div) 0 mode).errorMessage = divideByZeroMsg ∧
    "divide by zero".toList <:+: divideByZeroMsg.toList := by
  refine ⟨rfl, rfl, rfl, by decide⟩

/-- C2: `calculate` rounds the raw arithmetic result to the mode before
the range check and fails with the "too large" error (`error = true`,
`result = 0`) exactly when the absolute value of the rounded result
exceeds 999,999,999.99; in particular `999999999 + 0.99` succeeds with
result `999999999.99` in every mode while `999999999 + 1` fails with
the "too large" error in every mode. -/
theorem calculate_rounds_then_range_checks (a b : ℚ) (op : Operation)
    (mode : CalculatorMode) (hdiv : op = Operation.div → b ≠ 0) :
    (calculate a (some op) b mode =
      if |roundToMode (rawResult op a b) mode| > 999999999.99 then
        { result := 0, error := true, errorMessage := resultTooLargeMsg }
      else
        { result := roundToMode (rawResult op a b) mode,
          error := false, errorMessage := "" }) ∧
    ("too large".toList <:+: resultTooLargeMsg.toList) ∧
    (∀ m : CalculatorMode,
      calculate 999999999 (some Operation.add) 0.99 m =
        { result := 999999999.99, error := false, errorMessage := "" }) ∧
    (∀ m : CalculatorMode,
      calculate 999999999 (some Operation.add) 1 m =
        { result := 0, error := true, errorMessage := resultTooLargeMsg }) := by
  refine ⟨?_, by decide, ?_, ?_⟩
  · cases op with
    | add => rfl
    | sub => rfl
    | mul => rfl
    | div =>
        simp only [calculate, rawResult, if_neg (hdiv rfl)]
        rfl
  · intro m
    cases m with
    | checkbook =>
        have h : jsRound ((999999999 + 0.99) * 10 ^ decimalPlacesFor CalculatorMode.checkbook)
            = 99999999999 := by
          apply jsRound_eq_of <;>
            norm_num [decimalPlacesFor, DECIMAL_PLACES_CHECKBOOK]
        simp only [calculate, roundAndCheck, roundToMode, h]
        norm_num [CalcResult.mk.injEq, abs_of_nonneg, decimalPlacesFor, DECIMAL_PLACES_CHECKBOOK]
    | scientific =>
        have h : jsRound ((999999999 + 0.99) * 10 ^ decimalPlacesFor CalculatorMode.scientific)
            = 99999999999000000 := by
          apply jsRound_eq_of <;>
            norm_num [decimalPlacesFor, DECIMAL_PLACES_SCIENTIFIC]
        simp only [calculate, roundAndCheck, roundToMode, h]
        norm_num [CalcResult.mk.injEq, abs_of_nonneg, decimalPlacesFor, DECIMAL_PLACES_SCIENTIFIC]
  · intro m
    cases m with
    | checkbook =>
        have h : jsRound ((999999999 + 1) * 10 ^ decimalPlacesFor CalculatorMode.checkbook)
            = 100000000000 := by
          apply jsRound_eq_of <;>
            norm_num [decimalPlacesFor, DECIMAL_PLACES_CHECKBOOK]
        simp only [calculate, roundAndCheck, roundToMode, h]
        norm_num [abs_of_nonneg, decimalPlacesFor, DECIMAL_PLACES_CHECKBOOK]
    | scientific =>
        have h : jsRound ((999999999 + 1) * 10 ^ decimalPlacesFor CalculatorMode.scientific)
            = 100000000000000000 := by
          apply jsRound_eq_of <;>
            norm_num [decimalPlacesFor, DECIMAL_PLACES_SCIENTIFIC]
        simp only [calculate, roundAndCheck, roundToMode, h]
        norm_num [abs_of_nonneg, decimalPlacesFor, DECIMAL_PLACES_SCIENTIFIC]

/-- C2 witness: the range-check characterisation applied at
`10 ÷ 4` in checkbook mode. -/
theorem calculate_rounds_then_range_checks_witness :
    calculate 10 (some Operation.div) 4 CalculatorMode.checkbook =
      if |roundToMode (rawResult Operation.div 10 4) CalculatorMode.checkbook| > 999999999.99 then
        { result := 0, error := true, errorMessage := resultTooLargeMsg }
      else
        { result := roundToMode (rawResult Operation.div 10 4) CalculatorMode.checkbook,
          error := false, errorMessage := "" } :=
  (calculate_rounds_then_range_checks 10 4 Operation.div CalculatorMode.checkbook
    (fun _ => by norm_num)).1

/-- Modelled from the spec: "multiply by `10^decimals` ..., round to
nearest integer (half rounds away from zero ...), divide back" — the
ties-away-from-zero rounding the spec ascribes to `roundToMode`, for
comparison with the source's `Math.round`-based definition. -/
def roundHalfAwayFromZero (y : ℚ) : ℤ :=
  if 0 ≤ y then ⌊y + 1/2⌋ else -⌊-y + 1/2⌋

/-- Modelled from the spec: `roundToMode` as the spec describes it,
with the tie-break on the scaled magnitude away from zero. -/
def roundToModeSpec (value : ℚ) (mode : CalculatorMode) : ℚ :=
  let factor : ℚ := 10 ^ CalculatorEngine.decimalPlacesFor mode
  (roundHalfAwayFromZero (value * factor) : ℚ) / factor

/-- C7 counterexample: at `x = -0.005` in checkbook mode the code's
`Math.round`-based rounding gives `0` while the claimed
ties-away-from-zero rounding gives `-0.01`, so the two disagree. -/
theorem roundToMode_not_away_from_zero :
    roundToMode (-(1/200)) CalculatorMode.checkbook = 0 ∧
    roundToModeSpec (-(1/200)) CalculatorMode.checkbook = -(1/100) ∧
    roundToMode (-(1/200)) CalculatorMode.checkbook ≠
      roundToModeSpec (-(1/200)) CalculatorMode.checkbook := by
  with_unfolding_all decide

/-- C7 (amended): `roundToMode(x, mode)` equals `x` scaled by `10^d`
(`d = 2` for checkbook, `8` for scientific), rounded to the nearest
integer with ties toward positive infinity (JS `Math.round`), divided
back by `10^d`; for `0 ≤ x` this coincides with ties away from zero,
and in particular `roundToMode(3.145, checkbook) = 3.15`. -/
theorem roundToMode_scales_and_rounds :
    (∀ (x : ℚ) (mode : CalculatorMode),
      roundToMode x mode =
        (⌊x * 10 ^ decimalPlacesFor mode + 1/2⌋ : ℚ) / 10 ^ decimalPlacesFor mode) ∧
    (∀ (x : ℚ) (mode : CalculatorMode), 0 ≤ x →
      roundToMode x mode = roundToModeSpec x mode) ∧
    roundToMode 3.145 CalculatorMode.checkbook = 3.15 := by
  refine ⟨fun x mode => rfl, fun x mode hx => ?_, by with_unfolding_all decide⟩
  simp only [roundToMode, roundToModeSpec, roundHalfAwayFromZero, jsRound]
  rw [if_pos (mul_nonneg hx (by positivity))]

/-- C7 witness: the nonnegative-agreement part applied at `x = 1/4`. -/
theorem roundToMode_scales_and_rounds_witness :
    roundToMode (1/4) CalculatorMode.checkbook =
      roundToModeSpec (1/4) CalculatorMode.checkbook :=
  roundToMode_scales_and_rounds.2.1 (1/4) CalculatorMode.checkbook (by norm_num)

/-- C9: `roundToMode` is idempotent — rounding an already rounded value
changes nothing, for every value and mode. -/
theorem roundToMode_idempotent (x : ℚ) (mode : CalculatorMode) :
    roundToMode (roundToMode x mode) mode = roundToMode x mode := by
  have hf : (10 : ℚ) ^ decimalPlacesFor mode ≠ 0 := by positivity
  have hhalf : ⌊(1 : ℚ)/2⌋ = 0 := by
    rw [Int.floor_eq_zero_iff]
    constructor <;> norm_num
  simp only [roundToMode, jsRound]
  rw [div_mul_cancel₀ _ hf, Int.floor_int_add, hhalf, add_zero]

/-! ## Claims about the digit-press handlers -/

/-- C3: in the accumulating mode (no error, not waiting for an
operand) the screen's digit handler forms the candidate display (digit
replacing a lone "0", otherwise appended), parses it with
`getDisplayValue`, and rejects the keystroke leaving the whole state
unchanged exactly when the parsed absolute value exceeds
999,999,999.99. -/
theorem handleNumberPress_input_guard (prev : CalculatorState) (digit : String)
    (he : prev.error = false) (hw : prev.waitingForOperand = false) :
    CalculatorScreen.handleNumberPress prev digit =
      if |CalculatorEngine.getDisplayValue
            (if prev.display = "0" ∧ digit ≠ "." then digit
             else prev.display ++ digit)| > 999999999.99 then prev
      else
        { prev with display :=
            if prev.display = "0" ∧ digit ≠ "." then digit
            else prev.display ++ digit } := by
  simp only [CalculatorScreen.handleNumberPress, he, hw]
  simp

/-- C3 witness: with nine nines on the display, a tenth digit parses
over the bound and the keystroke is rejected. -/
theorem handleNumberPress_input_guard_witness :
    CalculatorScreen.handleNumberPress
        ⟨"999999999", "", none, none, false, false, ""⟩ "9" =
      if |CalculatorEngine.getDisplayValue
            (if "999999999" = "0" ∧ "9" ≠ "." then "9" else "999999999" ++ "9")| > 999999999.99 then
        ⟨"999999999", "", none, none, false, false, ""⟩
      else
        { (⟨"999999999", "", none, none, false, false, ""⟩ : CalculatorState) with
            display :=
              if "999999999" = "0" ∧ "9" ≠ "." then "9" else "999999999" ++ "9" } :=
  handleNumberPress_input_guard ⟨"999999999", "", none, none, false, false, ""⟩ "9" rfl rfl

/-- C10 counterexample: with nine nines accumulated, a tenth digit is
rejected by the screen's guarded handler but accepted by the
`useCalculator` hook's handler, so the two transitions disagree. -/
theorem handleNumberPress_implementations_differ :
    CalculatorScreen.handleNumberPress
        ⟨"999999999", "", none, none, false, false, ""⟩ "9" ≠
      useCalculator.handleNumberPress
        ⟨"999999999", "", none, none, false, false, ""⟩ "9" := by
  with_unfolding_all decide

/-- C10 (amended): the screen's and the hook's digit-press transitions
agree on every (state, digit) pair except when the accumulating-mode
candidate parses beyond the 999,999,999.99 input bound (there the
screen rejects the keystroke and the hook accepts it): they agree
whenever the state is in error, or waiting for an operand, or the
parsed candidate stays within the bound. -/
theorem handleNumberPress_implementations_agree (prev : CalculatorState) (digit : String)
    (h : prev.error = true ∨ prev.waitingForOperand = true ∨
      |CalculatorEngine.getDisplayValue
          (if prev.display = "0" ∧ digit ≠ "." then digit
           else prev.display ++ digit)| ≤ 999999999.99) :
    CalculatorScreen.handleNumberPress prev digit =
      useCalculator.handleNumberPress prev digit := by
  unfold CalculatorScreen.handleNumberPress useCalculator.handleNumberPress
  rcases h with h | h | h
  · simp [h]
  · by_cases he : prev.error
    · simp [he]
    · simp [he, h]
  · by_cases he : prev.error
    · simp [he]
    · by_cases hw : prev.waitingForOperand
      · simp [he, hw]
      · simp only [he, hw, if_false, Bool.false_eq_true, if_neg (not_lt.mpr h)]
        split <;> rfl

/-- C10 witness: the two handlers agree on a plain digit press from
the initial state. -/
theorem handleNumberPress_implementations_agree_witness :
    CalculatorScreen.handleNumberPress
        ⟨"0", "", none, none, false, false, ""⟩ "5" =
      useCalculator.handleNumberPress
        ⟨"0", "", none, none, false, false, ""⟩ "5" :=
  handleNumberPress_implementations_agree ⟨"0", "", none, none, false, false, ""⟩ "5"
    (Or.inr (Or.inr (by with_unfolding_all decide)))

/-! ## Claims about the undo/redo history manager -/

/-- Length and index of the stack after a push, in both the capped and
the uncapped branch. -/
lemma pushState_spec {σ : Type} (s : σ) (st : UndoRedoState σ) :
    ((pushState s st).stack.length =
      if min (st.currentIndex + 1) st.stack.length + 1 > 20 then
        min (st.currentIndex + 1) st.stack.length
      else min (st.currentIndex + 1) st.stack.length + 1) ∧
    ((pushState s st).currentIndex =
      if min (st.currentIndex + 1) st.stack.length + 1 > 20 then 19
      else min (st.currentIndex + 1) st.stack.length) := by
  simp only [pushState, UNDO_REDO_STACK_SIZE]
  refine ⟨?_, ?_⟩ <;>
    (split <;> split <;>
      simp_all [List.length_take, List.length_append, List.length_drop])

/-- `undo` leaves the stack alone and moves the index one step back
(saturating at zero, where it is a no-op). -/
lemma undoStep_spec {σ : Type} (st : UndoRedoState σ) :
    (undoStep st).currentIndex = st.currentIndex - 1 ∧
    (undoStep st).stack = st.stack := by
  unfold undoStep undoState
  split <;> simp_all

/-- `redo` leaves the stack alone and either is a no-op at the top or
moves the index one step forward while staying below the length. -/
lemma redoStep_spec {σ : Type} (st : UndoRedoState σ) :
    ((redoState st).1.stack = st.stack) ∧
    ((redoState st).1.currentIndex = st.currentIndex ∨
      (st.currentIndex + 1 < st.stack.length ∧
       (redoState st).1.currentIndex = st.currentIndex + 1)) := by
  unfold redoState
  split <;> simp_all

/-- C4: `pushState` discards the redo branch: from any manager state,
after `pushState A; pushState B; undo; pushState C` redo is impossible
(B is unreachable) while undo is possible (A is reachable); and in
general a push truncates the stack to positions `0..currentIndex`
before appending (whenever the capped eviction does not fire) and
always leaves `currentIndex` at the new last position (for any manager
within the size bound). -/
theorem pushState_discards_redo_branch {σ : Type} :
    (∀ (st : UndoRedoState σ) (A B C : σ),
      canRedo (pushState C (undoStep (pushState B (pushState A st)))) = false ∧
      canUndo (pushState C (undoStep (pushState B (pushState A st)))) = true) ∧
    (∀ (st : UndoRedoState σ) (s : σ),
      (st.stack.take (st.currentIndex + 1)).length + 1 ≤ UNDO_REDO_STACK_SIZE →
      pushState s st =
        ⟨st.stack.take (st.currentIndex + 1) ++ [s],
         (st.stack.take (st.currentIndex + 1)).length⟩) ∧
    (∀ (st : UndoRedoState σ) (s : σ),
      st.stack.length ≤ UNDO_REDO_STACK_SIZE →
      (pushState s st).currentIndex = (pushState s st).stack.length - 1) := by
  refine ⟨?_, ?_, ?_⟩
  · intro st A B C
    obtain ⟨hl1, hi1⟩ := pushState_spec A st
    obtain ⟨hl2, hi2⟩ := pushState_spec B (pushState A st)
    obtain ⟨hui, hus⟩ := undoStep_spec (pushState B (pushState A st))
    obtain ⟨hl4, hi4⟩ := pushState_spec C (undoStep (pushState B (pushState A st)))
    rw [hus, hui] at hl4 hi4
    simp only [canRedo, canUndo, decide_eq_false_iff_not, decide_eq_true_eq, not_lt]
    refine ⟨?_, ?_⟩ <;> (split_ifs at hl1 hi1 hl2 hi2 hl4 hi4 <;> omega)
  · intro st s h
    simp only [pushState, UNDO_REDO_STACK_SIZE] at *
    rw [if_neg (by simp only [List.length_append, List.length_cons, List.length_nil]; omega)]
    simp [List.length_append]
  · intro st s h
    obtain ⟨hl, hi⟩ := pushState_spec s st
    rw [hl, hi]
    unfold UNDO_REDO_STACK_SIZE at h
    split_ifs <;> omega

/-- C4 witness: the branch-discard scenario and the push equations on
a fresh natural-number manager. -/
theorem pushState_discards_redo_branch_witness :
    (canRedo (pushState 3 (undoStep (pushState 2 (pushState 1 (initUndoRedo (0 : ℕ)))))) = false ∧
     canUndo (pushState 3 (undoStep (pushState 2 (pushState 1 (initUndoRedo (0 : ℕ)))))) = true) ∧
    (pushState 7 (initUndoRedo (0 : ℕ)) =
      ⟨(initUndoRedo (0 : ℕ)).stack.take ((initUndoRedo (0 : ℕ)).currentIndex + 1) ++ [7],
       ((initUndoRedo (0 : ℕ)).stack.take ((initUndoRedo (0 : ℕ)).currentIndex + 1)).length⟩) ∧
    ((pushState 7 (initUndoRedo (0 : ℕ))).currentIndex =
      (pushState 7 (initUndoRedo (0 : ℕ))).stack.length - 1) :=
  ⟨pushState_discards_redo_branch.1 (initUndoRedo 0) 1 2 3,
   pushState_discards_redo_branch.2.1 (initUndoRedo 0) 7 (by decide),
   pushState_discards_redo_branch.2.2 (initUndoRedo 0) 7 (by decide)⟩

/-- The reachability invariant of the manager: at most 20 entries and
an index inside the stack. -/
def urInv {σ : Type} (st : UndoRedoState σ) : Prop :=
  st.stack.length ≤ UNDO_REDO_STACK_SIZE ∧ st.currentIndex < st.stack.length

/-- Every manager call preserves the bound-and-index invariant. -/
lemma urStep_preserves_inv {σ : Type} (st : UndoRedoState σ) (e : UndoRedoEvent σ)
    (h : urInv st) : urInv (urStep st e) := by
  obtain ⟨h1, h2⟩ := h
  unfold urInv UNDO_REDO_STACK_SIZE at *
  cases e with
  | push s =>
      obtain ⟨hl, hi⟩ := pushState_spec s st
      simp only [urStep, hl, hi]
      split_ifs <;> omega
  | undoCall =>
      obtain ⟨hi, hs⟩ := undoStep_spec st
      simp only [urStep]
      rw [show (undoState st).1 = undoStep st from rfl, hi, hs]
      omega
  | redoCall =>
      obtain ⟨hs, hi⟩ := redoStep_spec st
      simp only [urStep, hs]
      rcases hi with hi | ⟨hlt, hi⟩ <;> rw [hi] <;> omega
  | clearCall s =>
      simp [urStep, clearState]

/-- The invariant holds along any run of manager calls. -/
lemma runUndoRedo_inv_aux {σ : Type} (evs : List (UndoRedoEvent σ))
    (st : UndoRedoState σ) (h : urInv st) : urInv (evs.foldl urStep st) := by
  induction evs generalizing st with
  | nil => exact h
  | cons e rest ih => exact ih _ (urStep_preserves_inv st e h)

/-- A push from a regular state (index at the top, between 1 and 20
entries) stays regular and grows the length to at most 20. -/
lemma pushState_regular {σ : Type} (s : σ) (st : UndoRedoState σ)
    (h : st.currentIndex = st.stack.length - 1 ∧
         1 ≤ st.stack.length ∧ st.stack.length ≤ UNDO_REDO_STACK_SIZE) :
    (pushState s st).currentIndex = (pushState s st).stack.length - 1 ∧
    1 ≤ (pushState s st).stack.length ∧
    (pushState s st).stack.length ≤ UNDO_REDO_STACK_SIZE ∧
    (pushState s st).stack.length = min (st.stack.length + 1) UNDO_REDO_STACK_SIZE := by
  obtain ⟨hl, hi⟩ := pushState_spec s st
  unfold UNDO_REDO_STACK_SIZE at *
  rw [hl, hi]
  split_ifs <;> omega

/-- Folding pushes over a regular manager: the index stays at the top
and the length saturates at 20. -/
lemma foldl_pushState_regular {σ : Type} (l : List σ) (st : UndoRedoState σ)
    (h : st.currentIndex = st.stack.length - 1 ∧
         1 ≤ st.stack.length ∧ st.stack.length ≤ UNDO_REDO_STACK_SIZE) :
    (l.foldl (fun acc s => pushState s acc) st).currentIndex =
      (l.foldl (fun acc s => pushState s acc) st).stack.length - 1 ∧
    1 ≤ (l.foldl (fun acc s => pushState s acc) st).stack.length ∧
    (l.foldl (fun acc s => pushState s acc) st).stack.length =
      min (st.stack.length + l.length) UNDO_REDO_STACK_SIZE := by
  induction l generalizing st with
  | nil =>
      refine ⟨h.1, h.2.1, ?_⟩
      unfold UNDO_REDO_STACK_SIZE at *
      simp
      omega
  | cons x rest ih =>
      obtain ⟨p1, p2, p3, p4⟩ := pushState_regular x st h
      obtain ⟨q1, q2, q3⟩ := ih (pushState x st) ⟨p1, p2, p3⟩
      simp only [List.foldl_cons, List.length_cons]
      refine ⟨q1, q2, ?_⟩
      rw [q3, p4]
      unfold UNDO_REDO_STACK_SIZE
      omega

/-- Iterated `undo` walks the index down (saturating at zero) and
never touches the stack. -/
lemma undoStep_iterate {σ : Type} (k : ℕ) (st : UndoRedoState σ) :
    (undoStep^[k] st).currentIndex = st.currentIndex - k ∧
    (undoStep^[k] st).stack = st.stack := by
  induction k generalizing st with
  | zero => simp
  | succ n ih =>
      obtain ⟨hi, hs⟩ := undoStep_spec st
      rw [Function.iterate_succ_apply]
      obtain ⟨ihi, ihs⟩ := ih (undoStep st)
      refine ⟨?_, ?_⟩
      · rw [ihi, hi]
        omega
      · rw [ihs, hs]

/-- C5: the stack length never exceeds 20 after any sequence of
manager calls and the index always stays inside the stack; when a push
would exceed 20 entries the oldest entry (index 0) is evicted with the
index held at 19; and pushing 25 states onto a fresh manager permits
at most 20 successive `undo` calls before `canUndo` becomes false. -/
theorem undoRedo_stack_bounded {σ : Type} :
    (∀ (s0 : σ) (evs : List (UndoRedoEvent σ)),
      (runUndoRedo s0 evs).stack.length ≤ UNDO_REDO_STACK_SIZE ∧
      (runUndoRedo s0 evs).currentIndex < (runUndoRedo s0 evs).stack.length) ∧
    (∀ (st : UndoRedoState σ) (s : σ),
      (st.stack.take (st.currentIndex + 1) ++ [s]).length > UNDO_REDO_STACK_SIZE →
      pushState s st =
        ⟨(st.stack.take (st.currentIndex + 1) ++ [s]).drop 1,
         UNDO_REDO_STACK_SIZE - 1⟩) ∧
    (∀ (s0 : σ) (l : List σ), l.length = 25 →
      canUndo (undoStep^[20] (l.foldl (fun acc s => pushState s acc) (initUndoRedo s0))) =
        false) := by
  refine ⟨?_, ?_, ?_⟩
  · intro s0 evs
    exact runUndoRedo_inv_aux evs (initUndoRedo s0) (by simp [urInv, initUndoRedo, UNDO_REDO_STACK_SIZE])
  · intro st s h
    simp only [pushState]
    rw [if_pos h]
  · intro s0 l hlen
    obtain ⟨r1, r2, r3⟩ := foldl_pushState_regular l (initUndoRedo s0)
      (by simp [initUndoRedo, UNDO_REDO_STACK_SIZE])
    obtain ⟨u1, u2⟩ := undoStep_iterate 20 (l.foldl (fun acc s => pushState s acc) (initUndoRedo s0))
    simp only [canUndo, u1, decide_eq_false_iff_not, not_lt]
    rw [r1, r3, hlen]
    simp [initUndoRedo, UNDO_REDO_STACK_SIZE]

/-- C5 witness: the parts applied on a concrete natural-number
manager — the empty run, an eviction push on a full 20-entry manager,
and 25 concrete pushes followed by 20 undos. -/
theorem undoRedo_stack_bounded_witness :
    ((runUndoRedo (0 : ℕ) []).stack.length ≤ UNDO_REDO_STACK_SIZE ∧
     (runUndoRedo (0 : ℕ) []).currentIndex < (runUndoRedo (0 : ℕ) []).stack.length) ∧
    (pushState 7 (⟨List.replicate 20 0, 19⟩ : UndoRedoState ℕ) =
      ⟨((⟨List.replicate 20 0, 19⟩ : UndoRedoState ℕ).stack.take
          ((⟨List.replicate 20 0, 19⟩ : UndoRedoState ℕ).currentIndex + 1) ++ [7]).drop 1,
       UNDO_REDO_STACK_SIZE - 1⟩) ∧
    (canUndo (undoStep^[20]
        ((List.replicate 25 0).foldl (fun acc s => pushState s acc) (initUndoRedo (0 : ℕ)))) =
      false) :=
  ⟨undoRedo_stack_bounded.1 0 [],
   undoRedo_stack_bounded.2.1 ⟨List.replicate 20 0, 19⟩ 7 (by decide),
   undoRedo_stack_bounded.2.2 0 (List.replicate 25 0) (by decide)⟩

/-! ## Claims about reachable session states -/

/-- Every session event preserves "an error state shows display 0":
the only transitions that set the error flag also reset the display,
and no transition out of a non-error state raises the flag without
doing so. -/
lemma sessionStep_preserves_errorInv (prev : CalculatorState) (e : SessionEvent)
    (h : prev.error = true → prev.display = "0") :
    (sessionStep prev e).error = true → (sessionStep prev e).display = "0" := by
  cases e with
  | number d =>
      simp only [sessionStep, CalculatorScreen.handleNumberPress]
      split_ifs <;> simp_all [INITIAL_CALCULATOR_STATE]
  | decimal =>
      simp only [sessionStep, CalculatorScreen.handleDecimal]
      split_ifs <;> simp_all [INITIAL_CALCULATOR_STATE]
  | negative =>
      simp only [sessionStep, CalculatorScreen.handleNegative]
      split_ifs <;> simp_all
  | operatorPress op mode =>
      simp only [sessionStep, CalculatorScreen.handleOperatorPress]
      split_ifs with he
      · exact h
      · split
        · split_ifs <;> simp_all
        · simp_all
  | equals mode =>
      simp only [sessionStep, CalculatorScreen.handleEquals]
      split_ifs with he
      · exact h
      · split
        · split_ifs <;> simp_all
        · exact h
  | backspace =>
      simp only [sessionStep, CalculatorScreen.handleBackspace]
      split_ifs <;> simp_all
  | clear =>
      simp only [sessionStep, CalculatorScreen.handleClear]
      simp
  | allClear =>
      simp only [sessionStep, CalculatorScreen.handleAllClear]
      simp [INITIAL_CALCULATOR_STATE]

/-- The invariant holds along any run of session events. -/
lemma runSession_errorInv_aux (evs : List SessionEvent) (st : CalculatorState)
    (h : st.error = true → st.display = "0") :
    (evs.foldl sessionStep st).error = true → (evs.foldl sessionStep st).display = "0" := by
  induction evs generalizing st with
  | nil => exact h
  | cons e rest ih => exact ih _ (sessionStep_preserves_errorInv st e h)

/-- C6: in every session state reachable from the initial state by any
sequence of digit, decimal, sign-toggle, operator, equals, backspace,
clear and all-clear events, an error state always shows display
exactly "0". -/
theorem reachable_error_state_displays_zero (evs : List SessionEvent)
    (h : (runSession evs).error = true) : (runSession evs).display = "0" :=
  runSession_errorInv_aux evs INITIAL_CALCULATOR_STATE (by simp [INITIAL_CALCULATOR_STATE]) h

/-- C6 witness: keying `10 ÷ 0 =` reaches an error state, and the
invariant instantiated there yields display "0". -/
theorem reachable_error_state_displays_zero_witness :
    (runSession [SessionEvent.number "1", SessionEvent.number "0",
      SessionEvent.operatorPress Operation.div CalculatorMode.checkbook,
      SessionEvent.number "0", SessionEvent.equals CalculatorMode.checkbook]).error = true ∧
    (runSession [SessionEvent.number "1", SessionEvent.number "0",
      SessionEvent.operatorPress Operation.div CalculatorMode.checkbook,
      SessionEvent.number "0", SessionEvent.equals CalculatorMode.checkbook]).display = "0" :=
  ⟨by with_unfolding_all decide,
   reachable_error_state_displays_zero
     [SessionEvent.number "1", SessionEvent.number "0",
      SessionEvent.operatorPress Operation.div CalculatorMode.checkbook,
      SessionEvent.number "0", SessionEvent.equals CalculatorMode.checkbook]
     (by with_unfolding_all decide)⟩

/-! ## Claims about the error state and the undo history -/

/-- Membership in the stack after a push comes from the old stack or
is the pushed element. -/
lemma mem_pushState {σ : Type} {x s : σ} {st : UndoRedoState σ}
    (hx : x ∈ (pushState s st).stack) : x ∈ st.stack ∨ x = s := by
  simp only [pushState] at hx
  have hx2 : x ∈ st.stack.take (st.currentIndex + 1) ++ [s] := by
    split at hx
    · exact List.drop_subset _ _ hx
    · exact hx
  rcases List.mem_append.mp hx2 with h1 | h1
  · exact Or.inl (List.take_subset _ _ h1)
  · simp only [List.mem_singleton] at h1
    exact Or.inr h1

/-- Every snapshot in the history stack is a non-error state. -/
def appStackInv (st : AppState) : Prop :=
  ∀ s ∈ st.ur.stack, s.error = false

/-- The tracking effect never pushes an error state, so a commit
preserves the non-error-stack invariant. -/
lemma commitCalc_preserves_inv (st : AppState) (c : CalculatorState)
    (h : appStackInv st) : appStackInv (commitCalc st c) := by
  unfold appStackInv at *
  simp only [commitCalc]
  split
  · rename_i hcond
    intro s hs
    rcases mem_pushState hs with h1 | h1
    · exact h s h1
    · rw [h1]
      exact hcond.2
  · exact h

/-- The state handed back by `undo` sits on an unchanged stack. -/
lemma undoState_fst_stack {σ : Type} (st : UndoRedoState σ) :
    (undoState st).1.stack = st.stack :=
  (undoStep_spec st).2

/-- Every screen-level step preserves the non-error-stack invariant. -/
lemma appStep_preserves_inv (st : AppState) (e : AppEvent)
    (h : appStackInv st) : appStackInv (appStep st e) := by
  cases e with
  | session se => exact commitCalc_preserves_inv _ _ h
  | undoPress =>
      simp only [appStep]
      split_ifs
      · rcases hu : undoState st.ur with ⟨ur1, ropt⟩
        have hstack : ur1.stack = st.ur.stack := by
          have := undoState_fst_stack st.ur
          rw [hu] at this
          exact this
        cases ropt with
        | some restored =>
            simp only [hu]
            apply commitCalc_preserves_inv
            intro s hs
            exact h s (hstack ▸ hs)
        | none =>
            simp only [hu]
            intro s hs
            exact h s (hstack ▸ hs)
      · exact h
  | redoPress =>
      simp only [appStep]
      split_ifs
      · rcases hu : redoState st.ur with ⟨ur1, ropt⟩
        have hstack : ur1.stack = st.ur.stack := by
          have := (redoStep_spec st.ur).1
          rw [hu] at this
          exact this
        cases ropt with
        | some restored =>
            simp only [hu]
            apply commitCalc_preserves_inv
            intro s hs
            exact h s (hstack ▸ hs)
        | none =>
            simp only [hu]
            intro s hs
            exact h s (hstack ▸ hs)
      · exact h

/-- The invariant holds along any run of screen-level events. -/
lemma runApp_inv_aux (evs : List AppEvent) (st : AppState)
    (h : appStackInv st) : appStackInv (evs.foldl appStep st) := by
  induction evs generalizing st with
  | nil => exact h
  | cons e rest ih => exact ih _ (appStep_preserves_inv st e h)

/-- C8 counterexample: keying `10 ÷ 0 =` drives the session into the
error state, yet every snapshot on the undo stack has `error = false`
(the error state was not pushed), and the first `undo()` after the
failure restores a non-error state — not the error state the claim
says it restores. -/
theorem error_state_first_undo_not_error :
    (runApp divZeroSeq).calcState.error = true ∧
    ((runApp divZeroSeq).ur.stack.all fun s => !s.error) = true ∧
    (runApp (divZeroSeq ++ [AppEvent.undoPress])).calcState.error = false := by
  refine ⟨by with_unfolding_all decide, by with_unfolding_all decide,
    by with_unfolding_all decide⟩

/-- C8 (amended): the screen's push filter skips error states, so
every snapshot ever held in the undo history has `error = false`; in
particular after an arithmetic failure the first `undo()` does not
restore the error state but the most recent non-error snapshot — in
the `10 ÷ 0 =` scenario the pre-error display "10". -/
theorem error_states_never_pushed :
    (∀ (evs : List AppEvent) (s : CalculatorState),
      s ∈ (runApp evs).ur.stack → s.error = false) ∧
    ((runApp divZeroSeq).calcState.error = true ∧
     (runApp (divZeroSeq ++ [AppEvent.undoPress])).calcState.error = false ∧
     (runApp (divZeroSeq ++ [AppEvent.undoPress])).calcState.display = "10") := by
  refine ⟨?_, by with_unfolding_all decide, by with_unfolding_all decide,
    by with_unfolding_all decide⟩
  intro evs s hs
  exact runApp_inv_aux evs initApp
    (by
      intro x hx
      simp only [initApp, initUndoRedo, List.mem_singleton] at hx
      rw [hx]
      rfl) s hs

/-- C8 witness: the invariant applied to the empty run and the seeded
initial snapshot. -/
theorem error_states_never_pushed_witness :
    INITIAL_CALCULATOR_STATE.error = false :=
  error_states_never_pushed.1 [] INITIAL_CALCULATOR_STATE (List.mem_singleton.mpr rfl)
